import Mathlib

/-!
Shallow embedding of the icecube object-store filesystem core
(pkg/s3fs: S3FileSystem.go, S3FileInfo.go, ReadSeeker source file).

Modelling conventions:
- Go `time.Time` is modelled as `Int`; the zero value `time.Time` corresponds
  to `0`, and `t.Before(u)` corresponds to `t < u` (real bucket creation dates
  are positive).
- Go byte counts and sizes (`int64`, `int`) are modelled as `Int` where
  signedness matters and `Nat` for list lengths.
- Go maps are modelled as association lists; indexing `m[k]` on a Go map
  yields the zero value when the key is absent, modelled by `lookupD`.
- Go errors are modelled by the inductive `SdkErr`; a chain built with
  `fmt.Errorf("...: %w", err)` is `SdkErr.wrap msg inner`.  The AWS transport
  error `http.ResponseError` is `SdkErr.responseError status msg`; in the SDK
  a response error never wraps another response error, so it is a leaf here.
- A Go `panic` inside library code is modelled as the distinguished error
  value `SdkErr.panicked msg` returned through `Except`.
- The S3 backend (regional clients) is modelled by the record `S3Client`
  whose fields are arbitrary response functions, so theorems quantify over
  every possible backend behaviour.
-/

namespace Icecube

/-- Error model for the s3fs package: generic errors, wrapping via
`fmt.Errorf` with `%w`, AWS transport-level response errors (leaf: the SDK
never nests one response error inside another), panics surfaced as values,
and the io sentinel errors used by the reader. -/
inductive SdkErr : Type where
  | generic (msg : String)
  | wrap (msg : String) (inner : SdkErr)
  | responseError (status : Int) (msg : String)
  | panicked (msg : String)
  | eof
  | unexpectedEOF
  deriving Repr, DecidableEq

/-- Lookup in an association list with a default, modelling Go map indexing
`m[k]` which yields the zero value for an absent key. -/
def lookupD (m : List (String × Int)) (k : String) (dflt : Int) : Int :=
  match m.find? (fun kv => kv.1 = k) with
  | some kv => kv.2
  | none => dflt

/-- Lookup in a string-valued association list with a default. -/
def lookupSD (m : List (String × String)) (k : String) (dflt : String) : String :=
  match m.find? (fun kv => kv.1 = k) with
  | some kv => kv.2
  | none => dflt

/-- Go `strings.TrimPrefix(s, pre)`. -/
def trimPre (s pre : String) : String :=
  if pre.isPrefixOf s then s.drop pre.length else s

/-- Segment processing of Go `path.Clean`: drop empty and `.` segments and
resolve `..` against a stack (list-level rendition of the stdlib algorithm;
`rooted` paths absorb leading `..`). -/
def cleanSegs (rooted : Bool) : List String → List String → List String
  | stack, [] => stack.reverse
  | stack, seg :: rest =>
    if seg = "" ∨ seg = "." then cleanSegs rooted stack rest
    else if seg = ".." then
      match stack with
      | [] => cleanSegs rooted (if rooted then [] else [".."]) rest
      | top :: stack1 =>
        if top = ".." then cleanSegs rooted (".." :: top :: stack1) rest
        else cleanSegs rooted stack1 rest
    else cleanSegs rooted (seg :: stack) rest

/-- Go `path.Clean`. -/
def pathClean (p : String) : String :=
  if p = "" then "."
  else
    let rooted := p.startsWith "/"
    let segs := cleanSegs rooted [] (p.splitOn "/")
    if segs.isEmpty then (if rooted then "/" else ".")
    else (if rooted then "/" else "") ++ String.intercalate "/" segs

/-- Go `path.Join`: drop empty elements, join with `/`, clean; all-empty
input yields the empty string. -/
def pathJoin (elems : List String) : String :=
  let ne := elems.filter (fun e => e ≠ "")
  if ne.isEmpty then "" else pathClean (String.intercalate "/" ne)

/-- `S3FileInfo` (S3FileInfo.go): name, size, modification time, directory
flag. -/
structure S3FileInfo where
  name : String
  size : Int
  modTime : Int
  dir : Bool
  deriving Repr, DecidableEq

/-- `S3DirectoryEntry`: one entry of a `ReadDir` listing. -/
structure S3DirectoryEntry where
  name : String
  dir : Bool
  modTime : Int
  size : Int
  deriving Repr, DecidableEq

/-- One bucket descriptor as returned by `ListBuckets`. -/
structure BucketInfo where
  name : String
  creationDate : Int
  deriving Repr, DecidableEq

/-- `HeadObjectOutput` fields used by the code. -/
structure HeadObjectOutput where
  lastModified : Int
  contentLength : Int
  deriving Repr, DecidableEq

/-- One object record of a `ListObjects` page (`Contents`). -/
structure S3ObjectInfo where
  key : String
  size : Int
  lastModified : Int
  deriving Repr, DecidableEq

/-- The `ListObjectsInput` request the code builds: bucket, delimiter,
key prefix (`pfx`, Go field `Prefix`), optional `MaxKeys` (set only when
`maxEntries != -1 && maxEntries < 1000`), optional continuation `Marker`. -/
structure ListObjectsInput where
  bucket : String
  delimiter : String
  pfx : String
  maxKeys : Option Int
  marker : Option String
  deriving Repr, DecidableEq

/-- One `ListObjects` response page. -/
structure ListObjectsOutput where
  commonPrefixes : List String
  contents : List S3ObjectInfo
  isTruncated : Bool
  nextMarker : Option String
  deriving Repr, DecidableEq

/-- A regional S3 client, modelled as arbitrary response functions so that
theorems quantify over every backend behaviour.  `getObject` takes bucket,
key and the inclusive byte range bounds and returns the body bytes. -/
structure S3Client where
  listBuckets : Except SdkErr (List BucketInfo)
  listObjects : ListObjectsInput → Except SdkErr ListObjectsOutput
  headObject : String → String → Except SdkErr HeadObjectOutput
  headBucket : String → Except SdkErr Unit
  getObject : String → String → Int → Int → Except SdkErr (List Nat)

/-- `S3FileSystem` (the Go struct): configuration plus the regional client
pool.  `pfx` models the Go field `prefix`. -/
structure S3FileSystem where
  defaultRegion : String
  bucket : String
  pfx : String
  clients : String → S3Client
  bucketRegions : List (String × String)
  bucketCreationDates : List (String × Int)
  earliestCreationDate : Int
  maxEntries : Int

/-- `GetBucketRegion`: region for the bucket, default region if unknown. -/
def getBucketRegion (fs : S3FileSystem) (bucket : String) : String :=
  lookupSD fs.bucketRegions bucket fs.defaultRegion

/-- `NewS3FileSystem` (lines 382-408): folds the creation dates starting
from the zero time, keeping `t` whenever `t.Before(acc)`. -/
def newS3FileSystem (defaultRegion bucket pfx : String)
    (clients : String → S3Client)
    (bucketRegions : List (String × String))
    (bucketCreationDates : List (String × Int))
    (maxEntries : Int) : S3FileSystem :=
  let earliest := bucketCreationDates.foldl
    (fun acc kv => if kv.2 < acc then kv.2 else acc) 0
  { defaultRegion := defaultRegion
    bucket := bucket
    pfx := pfx
    clients := clients
    bucketRegions := bucketRegions
    bucketCreationDates := bucketCreationDates
    earliestCreationDate := earliest
    maxEntries := maxEntries }

/-- Path segments of a name: Go
`strings.Split(strings.TrimPrefix(name, "/"), "/")`. -/
def nameParts (name : String) : List String :=
  (trimPre name "/").splitOn "/"

/-- `parse` (lines 47-62): bucket and key for a name.  The Go code panics
when the bucket is empty and the prefix is not; the panic is modelled as the
error `SdkErr.panicked`. -/
def parse (fs : S3FileSystem) (name : String) : Except SdkErr (String × String) :=
  if fs.bucket.length = 0 then
    if fs.pfx.length ≠ 0 then
      .error (.panicked ("invalid configuration with bucket \"" ++ fs.bucket ++
        "\" and prefix \"" ++ fs.pfx ++ "\""))
    else
      let parts := nameParts name
      .ok (parts.headD "", pathJoin (parts.drop 1))
  else if fs.pfx.length > 0 then
    .ok (fs.bucket, pathJoin [fs.pfx, name])
  else
    .ok (fs.bucket, trimPre name "/")

/-- `key` (lines 64-72).  The Go code tests `strings.HasPrefix(name, "/")`
and slices off the first byte, which is exactly `strings.TrimPrefix` with
`"/"`, i.e. `trimPre name "/"`. -/
def s3key (fs : S3FileSystem) (name : String) : String :=
  if fs.pfx.length = 0 then trimPre name "/"
  else pathJoin [fs.pfx, name]

/-- `HeadObject` (lines 74-90): the returned file info marks the object a
directory exactly when its content length is zero. -/
def headObjectFS (fs : S3FileSystem) (name : String) : Except SdkErr S3FileInfo :=
  match parse fs name with
  | .error e => .error e
  | .ok (bucket, key) =>
    match (fs.clients (getBucketRegion fs bucket)).headObject bucket key with
    | .error e => .error e
    | .ok out =>
      .ok { name := name
            size := out.contentLength
            modTime := out.lastModified
            dir := out.contentLength = 0 }

/-- The first transport-level response error in a wrap chain, as found by
`errors.As` with target `*http.ResponseError`. -/
def firstResponseStatus : SdkErr → Option Int
  | .wrap _ inner => firstResponseStatus inner
  | .responseError status _ => some status
  | _ => none

/-- `IsNotExist` (lines 92-100): true when `errors.As` locates a transport
response error and its HTTP status code is 404.  `none` models a nil
error. -/
def isNotExist (e : Option SdkErr) : Bool :=
  match e with
  | none => false
  | some err =>
    match firstResponseStatus err with
    | some status => status = 404
    | none => false

/-- `ReadSeeker` (the seekable range reader): a range-read function, the
current offset and the total size.  `read off n` returns the byte count the
closure reports for a fetch of an `n`-byte buffer at offset `off`, paired
with an optional error. -/
structure ReadSeeker where
  read : Int → Nat → Nat × Option SdkErr
  offset : Int
  size : Int

/-- `ReadSeeker.Read`: end-of-stream when `offset >= size`, otherwise invoke
the range fetch and advance the offset by the count it reports.  Returns the
updated reader, the byte count and an optional error. -/
def rsRead (rs : ReadSeeker) (bufLen : Nat) : ReadSeeker × Nat × Option SdkErr :=
  if rs.size ≤ rs.offset then (rs, 0, some .eof)
  else
    let res := rs.read rs.offset bufLen
    let rs1 := if res.1 > 0 then { rs with offset := rs.offset + res.1 } else rs
    (rs1, res.1, res.2)

/-- `ReadSeeker.Seek`: whence 0 = start, 1 = current, 2 = end; no bounds
clamping; any other whence yields `io.ErrUnexpectedEOF` and leaves the
reader untouched. -/
def rsSeek (rs : ReadSeeker) (offset : Int) (whence : Int) :
    ReadSeeker × Except SdkErr Int :=
  if whence = 0 then ({ rs with offset := offset }, .ok offset)
  else if whence = 1 then
    ({ rs with offset := rs.offset + offset }, .ok (rs.offset + offset))
  else if whence = 2 then
    ({ rs with offset := rs.size + offset }, .ok (rs.size + offset))
  else (rs, .error .unexpectedEOF)

/-- Entry-name construction shared by common prefixes and objects inside
`ReadDir`: with no configured bucket the name is `/` + Join(bucket, key);
with a configured bucket it is `/` + key with the configured prefix
stripped. -/
def entryName (fs : S3FileSystem) (bucket key : String) : String :=
  if fs.bucket.length = 0 then "/" ++ pathJoin [bucket, key]
  else "/" ++ trimPre key fs.pfx

/-- The Go append-then-check loop (`append; if len == maxEntries break`):
append items one at a time, stopping right after the accumulated length
reaches `maxEntries` exactly. -/
def appendCapped (maxEntries : Int) (acc : List S3DirectoryEntry) :
    List S3DirectoryEntry → List S3DirectoryEntry
  | [] => acc
  | e :: rest =>
    let acc1 := acc ++ [e]
    if (acc1.length : Int) = maxEntries then acc1
    else appendCapped maxEntries acc1 rest

/-- Directory entry synthesized from one `CommonPrefixes` element: always a
directory of size 0, stamped with the creation date looked up under the
configured bucket name. -/
def commonPrefixEntry (fs : S3FileSystem) (bucket cp : String) : S3DirectoryEntry :=
  { name := entryName fs bucket cp
    dir := true
    modTime := lookupD fs.bucketCreationDates fs.bucket 0
    size := 0 }

/-- Directory entry for one `Contents` object: the directory flag is set
exactly when the object size is 0. -/
def objectEntry (fs : S3FileSystem) (bucket : String) (obj : S3ObjectInfo) :
    S3DirectoryEntry :=
  { name := entryName fs bucket obj.key
    dir := obj.size = 0
    modTime := obj.lastModified
    size := obj.size }

/-- Directory entry for one account bucket in the root listing. -/
def bucketEntry (b : BucketInfo) : S3DirectoryEntry :=
  { name := b.name, dir := true, modTime := b.creationDate, size := 0 }

/-- `ReadDir` lines 107-125: derive the bucket and the listing prefix from
the name and the configuration. -/
def readDirBucketPfx (fs : S3FileSystem) (name : String) : String × String :=
  if fs.bucket.length = 0 then
    if name.length > 0 then
      let parts := nameParts name
      let p :=
        if parts.length > 1 then
          let k := pathJoin (parts.drop 1)
          if k ≠ "/" then k ++ "/" else ""
        else ""
      (parts.headD "", p)
    else ("", "")
  else
    (fs.bucket, if name ≠ "/" ∨ fs.pfx.length > 0 then s3key fs name ++ "/" else "")

/-- The paginated listing loop of `ReadDir` (lines 151-244), fuelled by the
hard 20-page ceiling.  Each iteration issues one `ListObjects` request; with
`maxEntries != -1` entries are appended under the cap, otherwise without
limit; the loop ends on the cap, on a non-truncated page, or when the fuel
(page ceiling) runs out. -/
def readDirLoop (fs : S3FileSystem) (bucket pfx : String) :
    Nat → Option String → List S3DirectoryEntry →
    Except SdkErr (List S3DirectoryEntry)
  | 0, _, acc => .ok acc
  | fuel+1, marker, acc =>
    let input : ListObjectsInput :=
      { bucket := bucket
        delimiter := "/"
        pfx := pfx
        maxKeys := if fs.maxEntries ≠ -1 ∧ fs.maxEntries < 1000 then
            some fs.maxEntries
          else none
        marker := marker }
    match (fs.clients (getBucketRegion fs bucket)).listObjects input with
    | .error e => .error e
    | .ok out =>
      if fs.maxEntries ≠ -1 then
        let acc1 := appendCapped fs.maxEntries acc
          (out.commonPrefixes.map (commonPrefixEntry fs bucket))
        if (acc1.length : Int) = fs.maxEntries then .ok acc1
        else
          let acc2 := appendCapped fs.maxEntries acc1
            (out.contents.map (objectEntry fs bucket))
          if (acc2.length : Int) = fs.maxEntries then .ok acc2
          else if !out.isTruncated then .ok acc2
          else readDirLoop fs bucket pfx fuel out.nextMarker acc2
      else
        let acc2 := acc ++ out.commonPrefixes.map (commonPrefixEntry fs bucket)
          ++ out.contents.map (objectEntry fs bucket)
        if !out.isTruncated then .ok acc2
        else readDirLoop fs bucket pfx fuel out.nextMarker acc2

/-- `ReadDir` (lines 106-247): with an empty resolved bucket, list the
account's buckets (capped by the same append-then-check loop); otherwise run
the paginated object listing. -/
def readDir (fs : S3FileSystem) (name : String) :
    Except SdkErr (List S3DirectoryEntry) :=
  let bp := readDirBucketPfx fs name
  if bp.1.length = 0 then
    match (fs.clients fs.defaultRegion).listBuckets with
    | .error e => .error (.wrap "error listing buckets in account" e)
    | .ok buckets => .ok (appendCapped fs.maxEntries [] (buckets.map bucketEntry))
  else
    readDirLoop fs bp.1 bp.2 20 none []

/-- `Size` (lines 249-259): the content length reported by `HeadObject`. -/
def sizeFS (fs : S3FileSystem) (name : String) : Except SdkErr Int :=
  match parse fs name with
  | .error e => .error e
  | .ok (bucket, key) =>
    match (fs.clients (getBucketRegion fs bucket)).headObject bucket key with
    | .error e => .error e
    | .ok out => .ok out.contentLength

/-- Render a string the way `%q` quotes it in the error messages (escape
sequences inside the name are not modelled). -/
def quoteS (s : String) : String := "\"" ++ s ++ "\""

/-- `Stat` (lines 261-351). -/
def stat (fs : S3FileSystem) (name : String) : Except SdkErr S3FileInfo :=
  if fs.bucket.length = 0 then
    if fs.pfx.length ≠ 0 then
      .error (.generic ("invalid configuration with bucket " ++ quoteS fs.bucket
        ++ " and prefix " ++ quoteS fs.pfx))
    else if name = "/" then
      .ok { name := name, size := 0, modTime := fs.earliestCreationDate, dir := true }
    else
      let parts := nameParts name
      if parts.length = 1 then
        let bucket := parts.headD ""
        match (fs.clients (getBucketRegion fs bucket)).headBucket bucket with
        | .error e => .error e
        | .ok _ =>
          .ok { name := name
                size := 0
                modTime := lookupD fs.bucketCreationDates bucket 0
                dir := true }
      else
        match readDir fs name with
        | .error e => .error (.wrap ("error reading directory " ++ quoteS name) e)
        | .ok entries =>
          if entries.length > 0 then
            .ok { name := name
                  size := 0
                  modTime := lookupD fs.bucketCreationDates (parts.headD "") 0
                  dir := true }
          else headObjectFS fs name
  else
    if name = "/" ∧ fs.pfx.length = 0 then
      match (fs.clients (getBucketRegion fs fs.bucket)).headBucket fs.bucket with
      | .error e => .error e
      | .ok _ =>
        .ok { name := name
              size := 0
              modTime := lookupD fs.bucketCreationDates fs.bucket 0
              dir := true }
    else
      match readDir fs name with
      | .error e => .error (.wrap ("error reading directory " ++ quoteS name) e)
      | .ok entries =>
        if entries.length > 0 then
          .ok { name := name
                size := 0
                modTime := lookupD fs.bucketCreationDates fs.bucket 0
                dir := true }
        else headObjectFS fs name

/-- The byte-range fetch closure `Open` builds (lines 362-377): issue a
`GetObject` for bytes offset .. offset+bufLen-1 and, on success, report
`len(p)` bytes read — the buffer length, regardless of how many body bytes
the backend actually returned. -/
def openFetch (fs : S3FileSystem) (bucket key : String)
    (offset : Int) (bufLen : Nat) : Nat × Option SdkErr :=
  match (fs.clients (getBucketRegion fs bucket)).getObject bucket key
      offset (offset + (bufLen : Int) - 1) with
  | .error e => (0, some e)
  | .ok _body => (bufLen, none)

/-- `Open` (lines 353-380): resolve the size via `Size`, then return a
reader at offset 0 whose fetch function is the range closure. -/
def openFS (fs : S3FileSystem) (name : String) : Except SdkErr ReadSeeker :=
  match sizeFS fs name with
  | .error e => .error e
  | .ok size =>
    match parse fs name with
    | .error e => .error e
    | .ok (bucket, key) =>
      .ok { read := openFetch fs bucket key, offset := 0, size := size }

/-- Drive sequential `Read` calls with a fixed caller buffer size until the
first end-of-stream or error, totalling the byte counts the successful
reads report. -/
def readFullTotal : Nat → ReadSeeker → Nat → Nat → Nat
  | 0, _, _, total => total
  | fuel+1, rs, bufLen, total =>
    let r := rsRead rs bufLen
    match r.2.2 with
    | some _ => total
    | none => readFullTotal fuel r.1 bufLen (total + r.2.1)

/-! ## Test-harness definitions: concrete backends used by witnesses and
counterexamples, plus generic backends for the pagination claims. -/

/-- Entry count of a listing result (the total number of entries of a
successful `ReadDir`). -/
def entryCount (r : Except SdkErr (List S3DirectoryEntry)) : Option Nat :=
  r.toOption.map List.length

/-- A client every call of which fails; used where the backend must not be
reached. -/
def noClient : S3Client :=
  { listBuckets := .error (.generic "unreachable")
    listObjects := fun _ => .error (.generic "unreachable")
    headObject := fun _ _ => .error (.generic "unreachable")
    headBucket := fun _ => .error (.generic "unreachable")
    getObject := fun _ _ _ _ => .error (.generic "unreachable") }

/-- An account client exposing exactly one bucket `b1`. -/
def acctClient : S3Client :=
  { listBuckets := .ok [{ name := "b1", creationDate := 3 }]
    listObjects := fun _ => .error (.generic "unreachable")
    headObject := fun _ _ => .error (.generic "unreachable")
    headBucket := fun _ => .ok ()
    getObject := fun _ _ _ _ => .error (.generic "unreachable") }

/-- Account-scoped filesystem with `maxEntries = 0`. -/
def fsMax0 : S3FileSystem :=
  newS3FileSystem "r" "" "" (fun _ => acctClient) [] [] 0

/-- Account-scoped filesystem with `maxEntries = 1`. -/
def fsMax1 : S3FileSystem :=
  newS3FileSystem "r" "" "" (fun _ => acctClient) [] [] 1

/-- Filesystem constructed with an empty bucket and the non-empty prefix
`p`: the configuration the spec calls invalid. -/
def fsBad : S3FileSystem :=
  newS3FileSystem "r" "" "p" (fun _ => noClient) [] [] (-1)

/-- Account-scoped filesystem whose only known bucket was created at time
100 (any date after the zero time). -/
def fsCD : S3FileSystem :=
  newS3FileSystem "r" "" "" (fun _ => noClient) [] [("b", 100)] (-1)

/-- A concrete reader positioned at its end (offset 5 of size 5). -/
def rsAtEnd : ReadSeeker :=
  { read := fun _ _ => (0, none), offset := 5, size := 5 }

/-- S3 range-request semantics over a stored body: a start beyond the last
byte is a 416 error, otherwise the inclusive range clamped to the object end
is served. -/
def rangeBody (data : List Nat) (start endIncl : Int) : Except SdkErr (List Nat) :=
  if start < 0 ∨ (data.length : Int) ≤ start then
    .error (.responseError 416 "InvalidRange")
  else .ok ((data.drop start.toNat).take ((endIncl - start + 1).toNat))

/-- Ten stored bytes. -/
def tenBytes : List Nat := List.replicate 10 65

/-- A bucket client holding the single object `a.txt` of 10 bytes, with
faithful range semantics and an empty delimiter listing under any prefix. -/
def singleObjClient : S3Client :=
  { listBuckets := .error (.generic "unreachable")
    listObjects := fun _ =>
      .ok { commonPrefixes := [], contents := [], isTruncated := false
            nextMarker := none }
    headObject := fun _ key =>
      if key = "a.txt" then .ok { lastModified := 7, contentLength := 10 }
      else .error (.responseError 404 "NotFound")
    headBucket := fun _ => .ok ()
    getObject := fun _ key a b =>
      if key = "a.txt" then rangeBody tenBytes a b
      else .error (.responseError 404 "NotFound") }

/-- Filesystem over the single-object bucket. -/
def singleObjFS : S3FileSystem :=
  newS3FileSystem "r" "b" "" (fun _ => singleObjClient) [] [("b", 50)] (-1)

/-- Open a path and drive sequential reads of the given buffer size to the
first end-of-stream or error, returning the total of the reported byte
counts (`none` when `Open` itself fails). -/
def openAndReadTotal (fs : S3FileSystem) (name : String) (bufLen : Nat) :
    Option Nat :=
  match openFS fs name with
  | .error _ => none
  | .ok rs => some (readFullTotal (rs.size.toNat + bufLen + 1) rs bufLen 0)

/-- Page-splitting worker, fuelled by the dataset length (every step of a
positive page size consumes at least one object). -/
def paginateAux (k : Nat) : Nat → List S3ObjectInfo → List (List S3ObjectInfo)
  | 0, _ => []
  | _, [] => []
  | fuel+1, y :: ys => (y :: ys).take k :: paginateAux k fuel (List.drop (k-1) ys)

/-- Split a dataset into backend pages of at most `k` objects (page size 0
yields no pages). -/
def paginate (k : Nat) (xs : List S3ObjectInfo) : List (List S3ObjectInfo) :=
  if k = 0 then [] else paginateAux k xs.length xs

/-- Page index encoded by a continuation marker: absent means the first
page, otherwise the token length. -/
def markerIndex : Option String → Nat
  | none => 0
  | some s => s.length

/-- A backend serving a fixed sequence of listing pages; the continuation
marker is an opaque token encoding the next page index by its length, every
page but the last is flagged truncated. -/
def pagedClient (pages : List (List S3ObjectInfo)) : S3Client :=
  { listBuckets := .error (.generic "unreachable")
    listObjects := fun inp =>
      .ok { commonPrefixes := []
            contents := pages.getD (markerIndex inp.marker) []
            isTruncated := decide (markerIndex inp.marker + 1 < pages.length)
            nextMarker := some
              (String.mk (List.replicate (markerIndex inp.marker + 1) 'x')) }
    headObject := fun _ _ => .error (.generic "unreachable")
    headBucket := fun _ => .ok ()
    getObject := fun _ _ _ _ => .error (.generic "unreachable") }

/-- Bucket-scoped filesystem with unlimited `maxEntries` over a fixed page
sequence. -/
def pagedFSOfPages (pages : List (List S3ObjectInfo)) : S3FileSystem :=
  newS3FileSystem "r" "b" "" (fun _ => pagedClient pages) [] [] (-1)

/-- Bucket-scoped filesystem whose backend partitions a fixed dataset into
pages of at most `k` objects. -/
def pagedFS (k : Nat) (objs : List S3ObjectInfo) : S3FileSystem :=
  pagedFSOfPages (paginate k objs)

/-- A dataset of 21 one-byte objects. -/
def objs21 : List S3ObjectInfo :=
  List.replicate 21 { key := "k", size := 1, lastModified := 0 }

/-- A dataset of 2 objects for witnesses. -/
def objs2 : List S3ObjectInfo :=
  [{ key := "k1", size := 1, lastModified := 0 },
   { key := "k2", size := 2, lastModified := 0 }]

/-- A bucket client for the directory-classification witness: the listing
holds the zero-byte marker object `m/` and one real file, and `HeadObject`
reports a zero content length for `m/`. -/
def markerClient : S3Client :=
  { listBuckets := .error (.generic "unreachable")
    listObjects := fun _ =>
      .ok { commonPrefixes := []
            contents := [{ key := "m/", size := 0, lastModified := 4 },
                         { key := "f.txt", size := 3, lastModified := 5 }]
            isTruncated := false
            nextMarker := none }
    headObject := fun _ key =>
      if key = "m/" then .ok { lastModified := 4, contentLength := 0 }
      else .error (.responseError 404 "NotFound")
    headBucket := fun _ => .ok ()
    getObject := fun _ _ _ _ => .error (.generic "unreachable") }

/-- Filesystem over the marker-object bucket. -/
def markerFS : S3FileSystem :=
  newS3FileSystem "r" "docs" "" (fun _ => markerClient) [] [("docs", 50)] (-1)

/-- The error chains `errors.As` classifies as not-found: a transport
response error with status 404, possibly under `fmt.Errorf` wrapping. -/
inductive WrapsNotFound : SdkErr → Prop where
  | resp (msg : String) : WrapsNotFound (.responseError 404 msg)
  | wrap (msg : String) {inner : SdkErr} :
      WrapsNotFound inner → WrapsNotFound (.wrap msg inner)

/-! ## Helper lemmas -/

theorem string_len_zero (s : String) : s.length = 0 ↔ s = "" := by
  constructor
  · intro h
    cases s with
    | mk data =>
      cases data with
      | nil => rfl
      | cons a b => simp [String.length] at h
  · intro h; subst h; rfl

theorem isNotExist_some_iff (err : SdkErr) :
    isNotExist (some err) = true ↔ WrapsNotFound err := by
  induction err with
  | generic msg =>
    simp only [isNotExist, firstResponseStatus, Bool.false_eq_true, false_iff]
    intro h; cases h
  | wrap msg inner ih =>
    have h : isNotExist (some (.wrap msg inner)) = isNotExist (some inner) := rfl
    rw [h, ih]
    constructor
    · exact fun hw => WrapsNotFound.wrap msg hw
    · intro hw; cases hw with | wrap m hi => exact hi
  | responseError status msg =>
    show (decide (status = 404) = true) ↔ _
    rw [decide_eq_true_iff]
    constructor
    · intro h; subst h; exact WrapsNotFound.resp msg
    · intro h; cases h; rfl
  | panicked msg =>
    simp only [isNotExist, firstResponseStatus, Bool.false_eq_true, false_iff]
    intro h; cases h
  | eof =>
    simp only [isNotExist, firstResponseStatus, Bool.false_eq_true, false_iff]
    intro h; cases h
  | unexpectedEOF =>
    simp only [isNotExist, firstResponseStatus, Bool.false_eq_true, false_iff]
    intro h; cases h

/-! ## Claim theorems -/

/-- C2 (counterexample): the claim that `NewS3FileSystem` rejects an empty
bucket with a non-empty prefix at construction time is false — the
constructor accepts the configuration unchanged (it has no error result),
and the first rejection happens inside the per-request operation `Stat`. -/
theorem newS3FileSystem_accepts_empty_bucket_with_prefix :
    fsBad.bucket = "" ∧ fsBad.pfx = "p" ∧
    stat fsBad "/" =
      .error (.generic "invalid configuration with bucket \"\" and prefix \"p\"") :=
  ⟨rfl, rfl, rfl⟩

/-- C2 (amended): with an empty bucket and a non-empty prefix, construction
succeeds and the configuration is rejected at request time instead: `Stat`
returns the invalid-configuration error for every path, and `parse` (the
entry point of `HeadObject`, `Size` and `Open`) panics. -/
theorem stat_rejects_invalid_config (fs : S3FileSystem) (name : String)
    (hb : fs.bucket = "") (hp : fs.pfx ≠ "") :
    stat fs name = .error (.generic ("invalid configuration with bucket "
      ++ quoteS fs.bucket ++ " and prefix " ++ quoteS fs.pfx)) ∧
    parse fs name = .error (.panicked ("invalid configuration with bucket \""
      ++ fs.bucket ++ "\" and prefix \"" ++ fs.pfx ++ "\"")) := by
  have hb0 : fs.bucket.length = 0 := by rw [hb]; rfl
  have hp0 : fs.pfx.length ≠ 0 := fun h => hp ((string_len_zero _).mp h)
  constructor
  · unfold stat
    rw [if_pos hb0, if_pos hp0]
  · unfold parse
    rw [if_pos hb0, if_pos hp0]

/-- C2 (witness). -/
theorem stat_rejects_invalid_config_witness :
    stat fsBad "/x" = .error (.generic ("invalid configuration with bucket "
      ++ quoteS fsBad.bucket ++ " and prefix " ++ quoteS fsBad.pfx)) ∧
    parse fsBad "/x" = .error (.panicked ("invalid configuration with bucket \""
      ++ fsBad.bucket ++ "\" and prefix \"" ++ fsBad.pfx ++ "\"")) :=
  stat_rejects_invalid_config fsBad "/x" rfl (by decide)

/-- C3 (code bug): with no bucket configured and a single known bucket
created at time 100, `Stat("/")` reports modification time 0 (the Go zero
time), not the minimum creation date 100: the constructor folds with
`t.Before(acc)` starting from the zero time, so no later date ever replaces
the accumulator. -/
theorem stat_root_ignores_creation_dates :
    stat fsCD "/" = .ok { name := "/", size := 0, modTime := 0, dir := true } ∧
    (fsCD.bucketCreationDates.map Prod.snd).min? = some 100 ∧
    fsCD.earliestCreationDate = 0 :=
  ⟨rfl, rfl, rfl⟩

/-- C7: `Seek` performs no clamping or validation — whence 0 sets the
offset to `d`, whence 1 to `offset + d`, whence 2 to `size + d`, each
returning the new offset without error; and a `Read` at an offset at or
past `size` returns zero bytes with end-of-stream, not a failure. -/
theorem seek_no_clamp_and_eof (rs : ReadSeeker) (d : Int) (bufLen : Nat) :
    rsSeek rs d 0 = ({ rs with offset := d }, .ok d) ∧
    rsSeek rs d 1 = ({ rs with offset := rs.offset + d }, .ok (rs.offset + d)) ∧
    rsSeek rs d 2 = ({ rs with offset := rs.size + d }, .ok (rs.size + d)) ∧
    (rs.size ≤ rs.offset → rsRead rs bufLen = (rs, 0, some .eof)) := by
  refine ⟨?_, ?_, ?_, ?_⟩
  · simp [rsSeek]
  · norm_num [rsSeek]
  · norm_num [rsSeek]
  · intro h; simp [rsRead, h]

/-- C7 (witness). -/
theorem seek_no_clamp_and_eof_witness :
    rsSeek rsAtEnd 3 0 = ({ rsAtEnd with offset := 3 }, .ok 3) ∧
    rsRead rsAtEnd 4 = (rsAtEnd, 0, some .eof) := by
  obtain ⟨h1, h2, h3, h4⟩ := seek_no_clamp_and_eof rsAtEnd 3 4
  exact ⟨h1, h4 (by decide)⟩

/-- C10: a `Seek` with a whence other than 0, 1 or 2 returns
`io.ErrUnexpectedEOF` and leaves the reader completely unchanged, for every
offset argument and reader state. -/
theorem seek_invalid_whence (rs : ReadSeeker) (d w : Int)
    (h0 : w ≠ 0) (h1 : w ≠ 1) (h2 : w ≠ 2) :
    rsSeek rs d w = (rs, .error .unexpectedEOF) := by
  simp [rsSeek, h0, h1, h2]

/-- C10 (witness). -/
theorem seek_invalid_whence_witness :
    rsSeek rsAtEnd 9 7 = (rsAtEnd, .error .unexpectedEOF) :=
  seek_invalid_whence rsAtEnd 9 7 (by decide) (by decide) (by decide)

/-- C8: `IsNotExist` classifies an error as missing exactly when the error
wraps a transport-level response whose HTTP status is 404; a nil error and
every chain without a 404 response (permission, network, malformed request)
classify as false. -/
theorem isNotExist_iff_wraps_404 (e : Option SdkErr) :
    isNotExist e = true ↔ ∃ err, e = some err ∧ WrapsNotFound err := by
  cases e with
  | none =>
    simp [isNotExist]
  | some err =>
    simp [isNotExist_some_iff]

theorem mem_appendCapped (max : Int) (items acc : List S3DirectoryEntry)
    (e : S3DirectoryEntry) (h : e ∈ appendCapped max acc items) :
    e ∈ acc ∨ e ∈ items := by
  induction items generalizing acc with
  | nil =>
    simp only [appendCapped] at h
    exact Or.inl h
  | cons x rest ih =>
    simp only [appendCapped] at h
    by_cases hc : (((acc ++ [x]).length : Int)) = max
    · rw [if_pos hc] at h
      rcases List.mem_append.mp h with h1 | h1
      · exact Or.inl h1
      · simp only [List.mem_singleton] at h1
        exact Or.inr (h1 ▸ List.mem_cons_self x rest)
    · rw [if_neg hc] at h
      rcases ih (acc ++ [x]) h with h1 | h1
      · rcases List.mem_append.mp h1 with h2 | h2
        · exact Or.inl h2
        · simp only [List.mem_singleton] at h2
          exact Or.inr (h2 ▸ List.mem_cons_self x rest)
      · exact Or.inr (List.mem_cons_of_mem x h1)

theorem appendCapped_length_le (max : Int) (items acc : List S3DirectoryEntry)
    (hacc : (acc.length : Int) < max) :
    ((appendCapped max acc items).length : Int) ≤ max := by
  induction items generalizing acc with
  | nil =>
    simpa only [appendCapped] using le_of_lt hacc
  | cons x rest ih =>
    simp only [appendCapped]
    by_cases hc : (((acc ++ [x]).length : Int)) = max
    · rw [if_pos hc]
      exact le_of_eq hc
    · rw [if_neg hc]
      apply ih
      have hlen : ((acc ++ [x]).length : Int) = (acc.length : Int) + 1 := by
        simp
      omega

theorem readDirLoop_length_le (fs : S3FileSystem) (bucket pfx : String)
    (hmax : 1 ≤ fs.maxEntries) :
    ∀ (fuel : Nat) (marker : Option String) (acc : List S3DirectoryEntry),
      (acc.length : Int) < fs.maxEntries →
      ∀ entries, readDirLoop fs bucket pfx fuel marker acc = .ok entries →
      (entries.length : Int) ≤ fs.maxEntries := by
  intro fuel
  induction fuel with
  | zero =>
    intro marker acc hacc entries h
    simp only [readDirLoop, Except.ok.injEq] at h
    exact h ▸ le_of_lt hacc
  | succ n ih =>
    intro marker acc hacc entries h
    simp only [readDirLoop] at h
    split at h
    · exact absurd h (by simp)
    · rename_i out heq
      split at h
      · -- capped branch: maxEntries different from -1
        have hA : ((appendCapped fs.maxEntries acc
            (out.commonPrefixes.map (commonPrefixEntry fs bucket))).length : Int)
            ≤ fs.maxEntries :=
          appendCapped_length_le _ _ _ hacc
        split at h
        · simp only [Except.ok.injEq] at h
          subst h
          exact hA
        · rename_i hc1
          have hA1 := lt_of_le_of_ne hA hc1
          have hB : ((appendCapped fs.maxEntries
              (appendCapped fs.maxEntries acc
                (out.commonPrefixes.map (commonPrefixEntry fs bucket)))
              (out.contents.map (objectEntry fs bucket))).length : Int)
              ≤ fs.maxEntries :=
            appendCapped_length_le _ _ _ hA1
          split at h
          · simp only [Except.ok.injEq] at h
            subst h
            exact hB
          · rename_i hc2
            have hB1 := lt_of_le_of_ne hB hc2
            split at h
            · simp only [Except.ok.injEq] at h
              subst h
              exact hB
            · exact ih _ _ hB1 entries h
      · -- unlimited branch contradicts 1 <= maxEntries
        rename_i hne
        exfalso
        simp only [ne_eq, Decidable.not_not] at hne
        omega

/-- C4 (counterexample): with `maxEntries = 0` the cap is not enforced —
the account listing of one bucket returns one entry, not zero, because the
`len == maxEntries` break can never fire once an entry has been appended. -/
theorem readDir_maxEntries_zero_not_capped :
    fsMax0.maxEntries = 0 ∧
    readDir fsMax0 "/" =
      .ok [{ name := "b1", dir := true, modTime := 3, size := 0 }] :=
  ⟨rfl, by with_unfolding_all rfl⟩

/-- C4 (amended): for every configuration with `maxEntries >= 1`, every
path and every backend behaviour, a successful `ReadDir` returns at most
`maxEntries` entries; the `maxEntries = 0` case is excluded because the
code's equality break never fires there. -/
theorem readDir_le_maxEntries (fs : S3FileSystem) (name : String)
    (hmax : 1 ≤ fs.maxEntries) (entries : List S3DirectoryEntry)
    (h : readDir fs name = .ok entries) :
    (entries.length : Int) ≤ fs.maxEntries := by
  simp only [readDir] at h
  split at h
  · split at h
    · exact absurd h (by simp)
    · simp only [Except.ok.injEq] at h
      subst h
      exact appendCapped_length_le _ _ _ (by simpa using hmax)
  · exact readDirLoop_length_le fs _ _ hmax 20 none []
      (by simpa using hmax) entries h

/-- C4 (witness). -/
theorem readDir_le_maxEntries_witness :
    ((([{ name := "b1", dir := true, modTime := 3, size := 0 }]) :
      List S3DirectoryEntry).length : Int) ≤ fsMax1.maxEntries :=
  readDir_le_maxEntries fsMax1 "/" (by decide) _ (by with_unfolding_all rfl)

theorem readDirLoop_zero_size_dir (fs : S3FileSystem) (bucket pfx : String) :
    ∀ (fuel : Nat) (marker : Option String) (acc : List S3DirectoryEntry),
      (∀ e ∈ acc, e.size = 0 → e.dir = true) →
      ∀ entries, readDirLoop fs bucket pfx fuel marker acc = .ok entries →
      ∀ e ∈ entries, e.size = 0 → e.dir = true := by
  intro fuel
  induction fuel with
  | zero =>
    intro marker acc hacc entries h
    simp only [readDirLoop, Except.ok.injEq] at h
    exact h ▸ hacc
  | succ n ih =>
    intro marker acc hacc entries h
    simp only [readDirLoop] at h
    split at h
    · exact absurd h (by simp)
    · rename_i out heq
      have hcp : ∀ e ∈ out.commonPrefixes.map (commonPrefixEntry fs bucket),
          e.size = 0 → e.dir = true := by
        intro e he hz
        obtain ⟨cp, _, rfl⟩ := List.mem_map.mp he
        rfl
      have hobj : ∀ e ∈ out.contents.map (objectEntry fs bucket),
          e.size = 0 → e.dir = true := by
        intro e he hz
        obtain ⟨obj, _, rfl⟩ := List.mem_map.mp he
        simp only [objectEntry] at hz ⊢
        simp [hz]
      split at h
      · -- capped branch
        have hA : ∀ e ∈ appendCapped fs.maxEntries acc
            (out.commonPrefixes.map (commonPrefixEntry fs bucket)),
            e.size = 0 → e.dir = true := by
          intro e he
          rcases mem_appendCapped _ _ _ _ he with h1 | h1
          · exact hacc e h1
          · exact hcp e h1
        have hB : ∀ e ∈ appendCapped fs.maxEntries
            (appendCapped fs.maxEntries acc
              (out.commonPrefixes.map (commonPrefixEntry fs bucket)))
            (out.contents.map (objectEntry fs bucket)),
            e.size = 0 → e.dir = true := by
          intro e he
          rcases mem_appendCapped _ _ _ _ he with h1 | h1
          · exact hA e h1
          · exact hobj e h1
        split at h
        · simp only [Except.ok.injEq] at h
          exact h ▸ hA
        · split at h
          · simp only [Except.ok.injEq] at h
            exact h ▸ hB
          · split at h
            · simp only [Except.ok.injEq] at h
              exact h ▸ hB
            · exact ih _ _ hB entries h
      · -- unlimited branch
        have hB : ∀ e ∈ acc ++ out.commonPrefixes.map (commonPrefixEntry fs bucket)
            ++ out.contents.map (objectEntry fs bucket),
            e.size = 0 → e.dir = true := by
          intro e he
          rcases List.mem_append.mp he with h1 | h1
          · rcases List.mem_append.mp h1 with h2 | h2
            · exact hacc e h2
            · exact hcp e h2
          · exact hobj e h1
        split at h
        · simp only [Except.ok.injEq] at h
          exact h ▸ hB
        · exact ih _ _ hB entries h

/-- C6: every entry a successful `ReadDir` produces whose size is 0 carries
the directory flag (zero-byte objects are classified as directory markers,
bucket and common-prefix entries are directories of size 0), and the file
info `HeadObject` builds is a directory exactly when the reported content
length — its size — is 0. -/
theorem zero_size_is_directory (fs : S3FileSystem) (name : String)
    (entries : List S3DirectoryEntry) (h : readDir fs name = .ok entries) :
    (∀ e ∈ entries, e.size = 0 → e.dir = true) ∧
    (∀ fi, headObjectFS fs name = .ok fi → (fi.dir = true ↔ fi.size = 0)) := by
  constructor
  · simp only [readDir] at h
    split at h
    · split at h
      · exact absurd h (by simp)
      · simp only [Except.ok.injEq] at h
        subst h
        intro e he
        rcases mem_appendCapped _ _ _ _ he with h1 | h1
        · simp at h1
        · obtain ⟨b, _, rfl⟩ := List.mem_map.mp h1
          intro _
          rfl
    · exact readDirLoop_zero_size_dir fs _ _ 20 none [] (by simp) entries h
  · intro fi hfi
    simp only [headObjectFS] at hfi
    split at hfi
    · simp at hfi
    · split at hfi
      · simp at hfi
      · rename_i out heq2
        simp only [Except.ok.injEq] at hfi
        subst hfi
        simp

/-- C6 (witness). -/
theorem zero_size_is_directory_witness :
    ({ name := "/m/", dir := true, modTime := 4, size := 0 } :
      S3DirectoryEntry).dir = true ∧
    ({ name := "/m/", size := 0, modTime := 4, dir := true } :
      S3FileInfo).dir = true := by
  have h := zero_size_is_directory markerFS "/m/" _ (by with_unfolding_all rfl)
  refine ⟨h.1 _ (by with_unfolding_all decide) rfl, ?_⟩
  exact (h.2 { name := "/m/", size := 0, modTime := 4, dir := true }
    (by with_unfolding_all rfl)).mpr rfl

theorem paginateAux_flatten (k : Nat) :
    ∀ (fuel : Nat) (xs : List S3ObjectInfo), xs.length ≤ fuel →
      (paginateAux (k+1) fuel xs).flatten = xs := by
  intro fuel
  induction fuel with
  | zero =>
    intro xs h
    have hx : xs = [] := List.eq_nil_of_length_eq_zero (Nat.le_zero.mp h)
    subst hx
    rfl
  | succ n ih =>
    intro xs h
    cases xs with
    | nil => rfl
    | cons y ys =>
      simp only [paginateAux, List.flatten_cons, List.take_succ_cons,
        Nat.add_sub_cancel]
      have hlen : (List.drop k ys).length ≤ n := by
        simp only [List.length_drop]
        simp only [List.length_cons] at h
        omega
      rw [ih (List.drop k ys) hlen, List.cons_append, List.take_append_drop]

theorem paginate_flatten (k : Nat) (xs : List S3ObjectInfo) (hk : 1 ≤ k) :
    (paginate k xs).flatten = xs := by
  obtain ⟨m, rfl⟩ : ∃ m, k = m + 1 := ⟨k - 1, by omega⟩
  rw [paginate, if_neg (by omega)]
  exact paginateAux_flatten m xs.length xs le_rfl

theorem markerIndex_token (m : Nat) :
    markerIndex (some (String.mk (List.replicate m 'x'))) = m := by
  simp [markerIndex, String.length_mk]

theorem pagedFSOfPages_clients (pages : List (List S3ObjectInfo)) (r : String) :
    (pagedFSOfPages pages).clients r = pagedClient pages := rfl

theorem pagedFSOfPages_maxEntries (pages : List (List S3ObjectInfo)) :
    (pagedFSOfPages pages).maxEntries = -1 := rfl

theorem pagedClient_listObjects (pages : List (List S3ObjectInfo))
    (inp : ListObjectsInput) :
    (pagedClient pages).listObjects inp =
      .ok { commonPrefixes := []
            contents := pages.getD (markerIndex inp.marker) []
            isTruncated := decide (markerIndex inp.marker + 1 < pages.length)
            nextMarker := some
              (String.mk (List.replicate (markerIndex inp.marker + 1) 'x')) } := rfl

theorem readDirLoop_paged_step (pages : List (List S3ObjectInfo))
    (n : Nat) (marker : Option String) (acc : List S3DirectoryEntry) :
    readDirLoop (pagedFSOfPages pages) "b" "" (n+1) marker acc =
      if markerIndex marker + 1 < pages.length then
        readDirLoop (pagedFSOfPages pages) "b" "" n
          (some (String.mk (List.replicate (markerIndex marker + 1) 'x')))
          (acc ++ (pages.getD (markerIndex marker) []).map
            (objectEntry (pagedFSOfPages pages) "b"))
      else
        .ok (acc ++ (pages.getD (markerIndex marker) []).map
          (objectEntry (pagedFSOfPages pages) "b")) := by
  simp only [readDirLoop, pagedFSOfPages_clients, pagedClient_listObjects,
    pagedFSOfPages_maxEntries]
  by_cases hlt : markerIndex marker + 1 < pages.length
  · simp [hlt]
  · simp [hlt]

theorem readDirLoop_paged (pages : List (List S3ObjectInfo)) :
    ∀ (fuel : Nat) (marker : Option String) (acc : List S3DirectoryEntry),
      pages.length ≤ markerIndex marker + fuel →
      readDirLoop (pagedFSOfPages pages) "b" "" fuel marker acc =
        .ok (acc ++ (pages.drop (markerIndex marker)).flatten.map
          (objectEntry (pagedFSOfPages pages) "b")) := by
  intro fuel
  induction fuel with
  | zero =>
    intro marker acc h
    rw [List.drop_eq_nil_of_le (show pages.length ≤ markerIndex marker from by omega)]
    simp [readDirLoop]
  | succ n ih =>
    intro marker acc h
    rw [readDirLoop_paged_step]
    by_cases hlt : markerIndex marker + 1 < pages.length
    · rw [if_pos hlt]
      rw [ih _ _ (by rw [markerIndex_token]; omega)]
      rw [markerIndex_token]
      have hidx : markerIndex marker < pages.length := by omega
      rw [List.getD_eq_getElem pages [] hidx,
        ← List.getElem_cons_drop pages (markerIndex marker) hidx]
      simp only [List.flatten_cons, List.map_append, List.append_assoc]
    · rw [if_neg hlt]
      by_cases hidx : markerIndex marker < pages.length
      · rw [List.getD_eq_getElem pages [] hidx,
          ← List.getElem_cons_drop pages (markerIndex marker) hidx,
          List.drop_eq_nil_of_le
            (show pages.length ≤ markerIndex marker + 1 from by omega)]
        simp
      · rw [List.getD_eq_default pages [] (show pages.length ≤ markerIndex marker from by omega),
          List.drop_eq_nil_of_le (show pages.length ≤ markerIndex marker from by omega)]
        simp

theorem readDir_paged (pages : List (List S3ObjectInfo))
    (hp : pages.length ≤ 20) :
    readDir (pagedFSOfPages pages) "/" =
      .ok (pages.flatten.map (objectEntry (pagedFSOfPages pages) "b")) := by
  have hbp : readDirBucketPfx (pagedFSOfPages pages) "/" = ("b", "") := by
    with_unfolding_all rfl
  have h := readDirLoop_paged pages 20 none []
    (by simp [markerIndex]; omega)
  simp only [markerIndex, List.drop_zero, List.nil_append] at h
  simp only [readDir, hbp]
  rw [if_neg (by decide)]
  exact h

/-- C5 (counterexample): pagination is not transparent as claimed — over
the same 21-object dataset with unlimited `maxEntries`, a backend page size
of 1 hits the hard 20-page ceiling and yields 20 entries, while page size
21 yields all 21, so two page sizes give different entry counts. -/
theorem readDir_pagination_hits_page_ceiling :
    entryCount (readDir (pagedFS 1 objs21) "/") = some 20 ∧
    entryCount (readDir (pagedFS 21 objs21) "/") = some 21 ∧
    (some 20 : Option Nat) ≠ some 21 := by
  refine ⟨?_, ?_, by decide⟩
  · with_unfolding_all rfl
  · with_unfolding_all rfl

/-- C5 (amended): with `maxEntries = -1`, `ReadDir` over a fixed dataset
returns the same total entry count for any two backend page sizes, provided
each partition fits within the 20-page ceiling (beyond it the hard page
bound truncates the listing). -/
theorem readDir_pagination_transparent (objs : List S3ObjectInfo) (k1 k2 : Nat)
    (h1 : 1 ≤ k1) (h2 : 1 ≤ k2)
    (hp1 : (paginate k1 objs).length ≤ 20)
    (hp2 : (paginate k2 objs).length ≤ 20) :
    entryCount (readDir (pagedFS k1 objs) "/") =
      entryCount (readDir (pagedFS k2 objs) "/") := by
  rw [pagedFS, pagedFS, readDir_paged _ hp1, readDir_paged _ hp2]
  simp [entryCount, Except.toOption, paginate_flatten k1 objs h1,
    paginate_flatten k2 objs h2]

/-- C5 (witness). -/
theorem readDir_pagination_transparent_witness :
    entryCount (readDir (pagedFS 1 objs2) "/") =
      entryCount (readDir (pagedFS 2 objs2) "/") :=
  readDir_pagination_transparent objs2 1 2 (by decide) (by decide)
    (by with_unfolding_all decide) (by with_unfolding_all decide)

/-- C1 (code bug): the claimed property fails on the code.  For the
10-byte object `a.txt` read through `Open` with a 3-byte caller buffer,
`Stat` reports size 10 but the sequential read to end-of-stream totals 12
bytes: the range-fetch closure returns `len(p)` — the full buffer length —
even when the clamped range carries fewer body bytes, so the final window
contributes 3 counted bytes where only 1 remained. -/
theorem open_read_total_exceeds_stat_size :
    (stat singleObjFS "/a.txt").map S3FileInfo.size = .ok 10 ∧
    openAndReadTotal singleObjFS "/a.txt" 3 = some 12 ∧
    (12 : Nat) ≠ 10 := by
  refine ⟨?_, ?_, by decide⟩
  · with_unfolding_all rfl
  · with_unfolding_all rfl

theorem name_ne_root_of_parts (name : String)
    (h : 2 ≤ (nameParts name).length) : name ≠ "/" ∧ name ≠ "" := by
  constructor
  · intro hn
    rw [hn] at h
    have hr : nameParts "/" = [""] := by with_unfolding_all rfl
    rw [hr] at h
    norm_num at h
  · intro hn
    rw [hn] at h
    have hr : nameParts "" = [""] := by with_unfolding_all rfl
    rw [hr] at h
    norm_num at h

/-- C9: for a multi-segment path the fall-through branch of `Stat` first
performs the delimiter listing under the resolved key plus a trailing
slash — the listing prefix `ReadDir` uses is exactly the parsed key with
`/` appended, against the parsed (non-empty) bucket; a non-empty listing
yields a size-0 directory file info stamped with the bucket's creation
date, while an empty listing falls back to `HeadObject`, whose result —
including any error, not-found included — is returned unchanged. -/
theorem stat_fallthrough_lists_key_slash (fs : S3FileSystem) (name : String)
    (hparts : 2 ≤ (nameParts name).length)
    (hcfg : fs.bucket = "" →
      fs.pfx = "" ∧ (nameParts name).headD "" ≠ "" ∧
      pathJoin ((nameParts name).drop 1) ≠ "/") :
    (∃ b k, parse fs name = .ok (b, k) ∧
      readDirBucketPfx fs name = (b, k ++ "/") ∧ b ≠ "") ∧
    stat fs name =
      (match readDir fs name with
       | .error e =>
         .error (.wrap ("error reading directory " ++ quoteS name) e)
       | .ok entries =>
         if entries.length > 0 then
           .ok { name := name
                 size := 0
                 modTime := lookupD fs.bucketCreationDates
                   (if fs.bucket = "" then (nameParts name).headD ""
                    else fs.bucket) 0
                 dir := true }
         else headObjectFS fs name) := by
  obtain ⟨hroot, hempty⟩ := name_ne_root_of_parts name hparts
  have hnlen : name.length > 0 := by
    rcases Nat.eq_zero_or_pos name.length with h0 | h0
    · exact absurd ((string_len_zero _).mp h0) hempty
    · exact h0
  by_cases hb : fs.bucket = ""
  · obtain ⟨hpfx, hhead, hjoin⟩ := hcfg hb
    have hb0 : fs.bucket.length = 0 := by rw [hb]; rfl
    have hp0 : ¬ fs.pfx.length ≠ 0 := by rw [hpfx]; decide
    have hlen1 : ¬ (nameParts name).length = 1 := by omega
    constructor
    · refine ⟨(nameParts name).headD "", pathJoin ((nameParts name).drop 1),
        ?_, ?_, hhead⟩
      · simp only [parse]
        rw [if_pos hb0, if_neg hp0]
      · simp only [readDirBucketPfx]
        rw [if_pos hb0, if_pos hnlen,
          if_pos (show (nameParts name).length > 1 by omega), if_pos hjoin]
    · simp only [stat]
      rw [if_pos hb0, if_neg hp0, if_neg hroot, if_neg hlen1]
      simp [hb]
  · have hb0 : ¬ fs.bucket.length = 0 := fun h => hb ((string_len_zero _).mp h)
    have hcond : ¬ (name = "/" ∧ fs.pfx.length = 0) := fun h => hroot h.1
    constructor
    · by_cases hpp : fs.pfx.length > 0
      · refine ⟨fs.bucket, pathJoin [fs.pfx, name], ?_, ?_, hb⟩
        · simp only [parse]
          rw [if_neg hb0, if_pos hpp]
        · simp only [readDirBucketPfx, s3key]
          rw [if_neg hb0, if_pos (Or.inr hpp),
            if_neg (show ¬ fs.pfx.length = 0 by omega)]
      · refine ⟨fs.bucket, trimPre name "/", ?_, ?_, hb⟩
        · simp only [parse]
          rw [if_neg hb0, if_neg hpp]
        · simp only [readDirBucketPfx, s3key]
          rw [if_neg hb0, if_pos (Or.inl hroot),
            if_pos (show fs.pfx.length = 0 by omega)]
    · simp only [stat]
      rw [if_neg hb0, if_neg hcond]
      simp [hb]

/-- C9 (witness). -/
theorem stat_fallthrough_lists_key_slash_witness :
    stat markerFS "/x/y" =
      .ok { name := "/x/y", size := 0, modTime := 50, dir := true } := by
  have h := (stat_fallthrough_lists_key_slash markerFS "/x/y"
    (by with_unfolding_all decide)
    (fun hcontra => absurd hcontra (by with_unfolding_all decide))).2
  rw [h]
  with_unfolding_all rfl

end Icecube
